import Mathlib

/-!
Verification of the NapCat linux install script
(src/scripts/napcat-install-linux.py) against its specification.

The Python source is shallowly embedded: each class method that carries
decision logic becomes a pure Lean function over an explicit state, shell
commands become values of type List String, and an exit-code oracle
(code : List String → Nat, or which : String → Nat) stands for the outcome
of running each external command.  Program termination via sys.exit / exit
is modelled with Except or with an Option Nat exit-code component.
-/

set_option autoImplicit false

namespace NapCat

/-- Enum PackInstaller (source lines 26-32). -/
inductive PackInstaller where
  | RPM
  | DPKG
  deriving DecidableEq, Repr

/-- Enum PackManager (source lines 35-41). -/
inductive PackManager where
  | APT_GET
  | YUM
  deriving DecidableEq, Repr

/-- The three install decisions of the spec's InstallDecisionEngine:
skip, fresh install, upgrade. -/
inductive InstallDecision where
  | SKIP
  | FRESH_INSTALL
  | UPGRADE
  deriving DecidableEq, Repr

namespace QQ

/-- Decision logic of QQ.check_installed (lines 294-307):
if get_local_version() fails (no local version) install fresh;
elif qq_local_version != qq_remote_version install (upgrade);
else nothing (skip).  The local version is none exactly when
get_local_version returns False. -/
def install_decision (localVer : Option String) (remote : String) : InstallDecision :=
  match localVer with
  | none => .FRESH_INSTALL
  | some v => if v ≠ remote then .UPGRADE else .SKIP

end QQ

namespace ShellInstall

/-- Decision logic of ShellInstall.check_napcat (lines 457-478):
if napcat_install_path does not exist, download and install (fresh);
if napcat_remote_version != get_local_version(), download and install
(upgrade); else report already up to date (skip).  get_local_version()
is none exactly when the install path does not exist. -/
def check_napcat_decision (localVer : Option String) (remote : String) : InstallDecision :=
  match localVer with
  | none => .FRESH_INSTALL
  | some v => if remote ≠ v then .UPGRADE else .SKIP

/-- Decision logic of ShellInstall.check_packet (lines 549-567): the only
test is napcat_packet_install_path.exists(); when the directory exists the
method returns at once, otherwise it creates the directory, downloads and
installs.  No version of an already installed packet is ever read or
compared, so the decision depends only on whether local state is present
(localVer.isSome); the version value itself is ignored. -/
def check_packet_decision (localVer : Option String) : InstallDecision :=
  if localVer.isSome then .SKIP else .FRESH_INSTALL

end ShellInstall

namespace ShellInstall

/-- The fixed proxy list of ShellInstall (lines 421-428), tried in order
after the primary URL fails. -/
def proxy_list : List String :=
  ["https://slink.ltd/",
   "https://hub.gitmirror.com/",
   "https://gh.ddlc.top/",
   "https://cors.isteed.cc/",
   "https://ghproxy.cc/",
   "https://github.moeyy.xyz/"]

/-- The mirror retry loop shared by download_napcat (lines 539-547) and
download_packet (lines 609-617): for each proxy in proxy_list, the
attempted URL is the proxy string prepended to the unchanged primary URL
(args[5] = proxy + url); the first attempt whose curl exits 0 ends the
loop (return).  The oracle ok tells whether curl succeeds on a given URL.
Returns the list of attempted URLs in order and the successful URL, if
any. -/
def try_mirrors (ok : String → Bool) (primary : String) : List String → List String × Option String
  | [] => ([], none)
  | p :: ps =>
    let u := p ++ primary
    if ok u then ([u], some u)
    else
      let r := try_mirrors ok primary ps
      (u :: r.1, r.2)

/-- Whole attempt sequence of download_napcat / download_packet: first the
primary URL (lines 529-539 / 598-609, curl with error_exit = False), then
the mirror loop.  Returns attempted URLs in order and the successful URL,
if any. -/
def fetch_with_mirrors (ok : String → Bool) (primary : String) (mirrors : List String) :
    List String × Option String :=
  if ok primary then ([primary], some primary)
  else
    let r := try_mirrors ok primary mirrors
    (primary :: r.1, r.2)

/-- Outcome of a whole download_napcat / download_packet call: when every
attempt fails, the for-else branch prints the failure and calls exit(1),
modelled as Except.error (); otherwise the successful URL is returned.
There is no continuation after the error: exit(1) ends the run. -/
def download_run (ok : String → Bool) (primary : String) (mirrors : List String) :
    List String × Except Unit String :=
  let r := fetch_with_mirrors ok primary mirrors
  (r.1, match r.2 with
        | some u => .ok u
        | none => .error ())

end ShellInstall

/-- curl_subprocess with error_exit = True (QQ.install, lines 344 and 355:
the QQ package download): a non-zero curl exit immediately calls exit(1)
(lines 194-195); there are no mirror retries at this call site, so the
primary URL is the single attempt.  Returns Except.error () for the fatal
exit, Except.ok () for success. -/
def curl_fatal (returncode : Nat) : Except Unit Unit :=
  if returncode ≠ 0 then .error () else .ok ()

/-- Python dict assignment data[k] = v on a JSON object modelled as an
association list in insertion order (json.dump serializes in that order):
the first entry with key k keeps its place and gets the new value; a
missing key is appended at the end. -/
def setKey {α β : Type} [DecidableEq α] : List (α × β) → α → β → List (α × β)
  | [], k, v => [(k, v)]
  | (k2, v2) :: rest, k, v =>
    if k2 = k then (k2, v) :: rest else (k2, v2) :: setKey rest k v

/-- Python dict lookup data[k]: the value of the first entry with key k,
none when the key is absent. -/
def getVal {α β : Type} [DecidableEq α] : List (α × β) → α → Option β
  | [], _ => none
  | (k2, v2) :: rest, k => if k2 = k then some v2 else getVal rest k

/-- A sequence of dict assignments applied in order: the read-modify-write
pattern of QQ.update_linuxqq_config (lines 387-394),
ShellInstall.install_packet (lines 573-582) and the package.json rewrite of
ShellInstall.install_napcat (lines 514-523); also zipfile.extractall
writing each archive member over the target tree (lines 494-496). -/
def applyEdits {α β : Type} [DecidableEq α] (d : List (α × β)) (es : List (α × β)) :
    List (α × β) :=
  es.foldl (fun acc e => setKey acc e.1 e.2) d

namespace ShellInstall

/-- First phase of ShellInstall.install_napcat on an existing install
(lines 488-492): every entry of napcat_install_path whose name is not
"config" is removed with rm -rf.  The installed tree is flattened to an
association list from file paths (component lists) to contents; exactly
the files whose first component is "config" survive this phase. -/
def remove_except_config (fs : List (List String × String)) : List (List String × String) :=
  fs.filter (fun e => e.1.head? == some "config")

/-- Second phase of ShellInstall.install_napcat (lines 494-496):
zipfile.extractall writes every archive member at its path inside
napcat_install_path, overwriting a file already at that path and leaving
every other file in place. -/
def extract_all (fs archive : List (List String × String)) : List (List String × String) :=
  applyEdits fs archive

/-- ShellInstall.install_napcat on the upgrade path (the install directory
already exists): remove everything except config, then extract the new
archive into the directory. -/
def install_napcat_upgrade (fs archive : List (List String × String)) :
    List (List String × String) :=
  extract_all (remove_except_config fs) archive

/-- The packetServer overwrite of ShellInstall.install_packet
(lines 573-582) on napcat.json. -/
def install_packet_patch (d : List (String × String)) : List (String × String) :=
  applyEdits d [("packetServer", "127.0.0.1:8086")]

/-- The main-entry overwrite of ShellInstall.install_napcat
(lines 514-523) on the QQ package.json. -/
def package_json_patch (d : List (String × String)) : List (String × String) :=
  applyEdits d [("main", "./loadNapCat.js")]

end ShellInstall

/-- call_subprocess (lines 135-149): subprocess.run with check=True raises
CalledProcessError on a non-zero exit, and the handler prints the failure
and calls sys.exit(e.returncode); the function returns (necessarily with
returncode 0) only when the command succeeded.  Except.error models the
sys.exit with that exit code. -/
def call_subprocess (returncode : Nat) : Except Nat Nat :=
  if returncode ≠ 0 then .error returncode else .ok returncode

namespace ShellInstall

/-- ShellInstall.detect_package_manager (lines 672-684), with
which : String → Nat the exit code of running `which name`.  The source
probes apt-get through call_subprocess, whose failure ends the whole run,
so the yum elif and the final else are reachable only through the .ok
path, which always carries returncode 0: the .error branches record the
early sys.exit.  The final else (lines 680-682) prints that no package
manager was found and calls sys.exit(1). -/
def detect_package_manager (which : String → Nat) : Except Nat PackManager :=
  match call_subprocess (which "apt-get") with
  | .error c => .error c
  | .ok c =>
    if c = 0 then .ok .APT_GET
    else
      match call_subprocess (which "yum") with
      | .error c2 => .error c2
      | .ok c2 => if c2 = 0 then .ok .YUM else .error 1

/-- ShellInstall.detect_package_installer (lines 686-698): identical
structure, probing dpkg before rpm. -/
def detect_package_installer (which : String → Nat) : Except Nat PackInstaller :=
  match call_subprocess (which "dpkg") with
  | .error c => .error c
  | .ok c =>
    if c = 0 then .ok .DPKG
    else
      match call_subprocess (which "rpm") with
      | .error c2 => .error c2
      | .ok c2 => if c2 = 0 then .ok .RPM else .error 1

end ShellInstall

namespace QQ

/-- apt-get install -y pkg, as run by QQ.install lines 359-368. -/
def apt_cmd (pkg : String) : List String := ["apt-get", "install", "-y", pkg]

/-- The QQ.deb download command (line 355). -/
def curl_qq_deb (url : String) : List String := ["curl", "-L", "-#", url, "-o", "QQ.deb"]

/-- The QQ.deb install command (line 358). -/
def apt_install_qq : List String := ["apt-get", "install", "-f", "-y", "./QQ.deb"]

/-- Removal of the downloaded QQ.deb (line 371). -/
def rm_qq_deb : List String := ["rm", "-f", "QQ.deb"]

/-- The QQ.rpm download command (line 344). -/
def curl_qq_rpm (url : String) : List String := ["curl", "-L", "-#", url, "-o", "QQ.rpm"]

/-- The QQ.rpm install command (line 347). -/
def yum_localinstall_qq : List String := ["yum", "localinstall", "-y", "./QQ.rpm"]

/-- Removal of the downloaded QQ.rpm (line 350). -/
def rm_qq_rpm : List String := ["rm", "-f", "QQ.rpm"]

/-- QQ.install, DPKG branch (lines 353-372), as a sequential trace over
an exit-code oracle.  Returns the commands run, in order, and some exit
code if the run terminated early, none if it ran to completion:
curl_subprocess and long_time_subprocess with error_exit = True exit(1)
on failure; the libasound2 attempt runs with error_exit = False and its
failure only triggers the libasound2t64 attempt (lines 363-368); the
final rm runs through call_subprocess, which sys.exits with rm's own code
on failure, so the warning at lines 371-372 is unreachable (the guard
reads a returncode that is always 0 when reached). -/
def install_dpkg (code : List String → Nat) (url : String) :
    List (List String) × Option Nat :=
  if code (curl_qq_deb url) ≠ 0 then ([curl_qq_deb url], some 1)
  else if code apt_install_qq ≠ 0 then ([curl_qq_deb url, apt_install_qq], some 1)
  else if code (apt_cmd "libnss3") ≠ 0 then
    ([curl_qq_deb url, apt_install_qq, apt_cmd "libnss3"], some 1)
  else if code (apt_cmd "libgbm1") ≠ 0 then
    ([curl_qq_deb url, apt_install_qq, apt_cmd "libnss3", apt_cmd "libgbm1"], some 1)
  else if code (apt_cmd "xvfb") ≠ 0 then
    ([curl_qq_deb url, apt_install_qq, apt_cmd "libnss3", apt_cmd "libgbm1",
      apt_cmd "xvfb"], some 1)
  else
    let t6 := [curl_qq_deb url, apt_install_qq, apt_cmd "libnss3", apt_cmd "libgbm1",
               apt_cmd "xvfb", apt_cmd "libasound2"]
    if code (apt_cmd "libasound2") ≠ 0 then
      if code (apt_cmd "libasound2t64") ≠ 0 then
        (t6 ++ [apt_cmd "libasound2t64"], some 1)
      else
        (t6 ++ [apt_cmd "libasound2t64", rm_qq_deb],
         if code rm_qq_deb ≠ 0 then some (code rm_qq_deb) else none)
    else
      (t6 ++ [rm_qq_deb],
       if code rm_qq_deb ≠ 0 then some (code rm_qq_deb) else none)

/-- QQ.install, RPM branch (lines 342-351): download, yum localinstall,
then rm through call_subprocess with the same unreachable-warning
structure as the DPKG branch. -/
def install_rpm (code : List String → Nat) (url : String) :
    List (List String) × Option Nat :=
  if code (curl_qq_rpm url) ≠ 0 then ([curl_qq_rpm url], some 1)
  else if code yum_localinstall_qq ≠ 0 then ([curl_qq_rpm url, yum_localinstall_qq], some 1)
  else
    ([curl_qq_rpm url, yum_localinstall_qq, rm_qq_rpm],
     if code rm_qq_rpm ≠ 0 then some (code rm_qq_rpm) else none)

/-- The three dict assignments of QQ.update_linuxqq_config (lines 390-392). -/
def config_edits (remoteVer remoteHash : String) : List (String × String) :=
  [("baseVersion", remoteVer), ("curVersion", remoteVer), ("buildId", remoteHash)]

/-- QQ.update_linuxqq_config (lines 378-394): every discovered per-user
config.json (the find results plus root's copy) is read, the three fields
overwritten, and written back.  Configs are modelled as JSON objects
(association lists) with string values, which covers the written fields. -/
def update_linuxqq_config (remoteVer remoteHash : String)
    (configs : List (List (String × String))) : List (List (String × String)) :=
  configs.map (fun d => applyEdits d (config_edits remoteVer remoteHash))

/-- QQ.check_installed (lines 294-307): decides the install action from
local and remote version and then runs update_linuxqq_config on every
discovered config, with no condition on the decision (the update runs
also when the decision is SKIP). -/
def check_installed (localVer : Option String) (remoteVer remoteHash : String)
    (configs : List (List (String × String))) :
    InstallDecision × List (List (String × String)) :=
  (install_decision localVer remoteVer, update_linuxqq_config remoteVer remoteHash configs)

end QQ

/-- Local NapCat payload state seen by ShellInstall.get_local_version
(lines 636-645): whether napcat_install_path exists, and the version field
of napcat_install_path/package.json when that file exists and carries the
field. -/
structure NapCatTree where
  dirExists : Bool
  manifestVersion : Option String
  deriving DecidableEq, Repr

namespace ShellInstall

/-- ShellInstall.get_local_version (lines 636-645): returns None when the
install directory does not exist; otherwise it opens package.json and
returns "v" prepended to the version field.  When the directory exists but
the manifest file (or its version field) is missing, the open or the key
access raises an unhandled exception, modelled as Except.error ().  The
state is returned unchanged in every case: the method only reads. -/
def get_local_version (st : NapCatTree) : Except Unit (Option String) × NapCatTree :=
  if st.dirExists = false then (.ok none, st)
  else
    match st.manifestVersion with
    | some ver => (.ok (some ("v" ++ ver)), st)
    | none => (.error (), st)

end ShellInstall

end NapCat

open NapCat

/-- Claim C1, as stated, is false on the packet artifact: with a packet
installed at version v1.0.0 and remote version v2.0.0 (local state present,
versions differ) ShellInstall.check_packet decides SKIP, while the claim
requires UPGRADE in exactly this situation (and allows SKIP only when the
versions match). -/
theorem c1_counterexample :
    ShellInstall.check_packet_decision (some "v1.0.0") = InstallDecision.SKIP ∧
    ("v1.0.0" : String) ≠ "v2.0.0" ∧
    InstallDecision.SKIP ≠ InstallDecision.UPGRADE := by
  refine ⟨rfl, by decide, by decide⟩

/-- Claim C1, amended: for the host application (QQ) and the NapCat shell
artifact the decision is SKIP iff the local version is present and equals
the remote version, FRESH_INSTALL iff no local version is present, UPGRADE
iff a local version is present and differs.  For the packet artifact the
decision is SKIP iff local state is present and FRESH_INSTALL iff it is
absent, with no version comparison: UPGRADE never occurs for it. -/
theorem c1_install_decision_rules :
    (∀ (l : Option String) (r : String),
      (QQ.install_decision l r = InstallDecision.SKIP ↔ l = some r) ∧
      (QQ.install_decision l r = InstallDecision.FRESH_INSTALL ↔ l = none) ∧
      (QQ.install_decision l r = InstallDecision.UPGRADE ↔ ∃ v, l = some v ∧ v ≠ r)) ∧
    (∀ (l : Option String) (r : String),
      (ShellInstall.check_napcat_decision l r = InstallDecision.SKIP ↔ l = some r) ∧
      (ShellInstall.check_napcat_decision l r = InstallDecision.FRESH_INSTALL ↔ l = none) ∧
      (ShellInstall.check_napcat_decision l r = InstallDecision.UPGRADE ↔
        ∃ v, l = some v ∧ v ≠ r)) ∧
    (∀ l : Option String,
      (ShellInstall.check_packet_decision l = InstallDecision.SKIP ↔ l.isSome) ∧
      (ShellInstall.check_packet_decision l = InstallDecision.FRESH_INSTALL ↔ l = none) ∧
      ShellInstall.check_packet_decision l ≠ InstallDecision.UPGRADE) := by
  refine ⟨fun l r => ?_, fun l r => ?_, fun l => ?_⟩
  · cases l with
    | none => simp [QQ.install_decision]
    | some v =>
      by_cases h : v = r
      · simp [QQ.install_decision, h]
      · simp [QQ.install_decision, h]
  · cases l with
    | none => simp [ShellInstall.check_napcat_decision]
    | some v =>
      by_cases h : v = r
      · simp [ShellInstall.check_napcat_decision, h]
      · simp [ShellInstall.check_napcat_decision, h, Ne.symm h]
  · cases l with
    | none => simp [ShellInstall.check_packet_decision]
    | some v => simp [ShellInstall.check_packet_decision]

/-- Helper for C2: when the first K mirror URLs fail and the mirror at
index K succeeds, try_mirrors attempts exactly the first K+1 mirror URLs
in order and returns the successful one. -/
theorem try_mirrors_first_success (ok : String → Bool) (primary : String) :
    ∀ (mirrors : List String) (K : Nat) (hK : K < mirrors.length),
      (∀ i (hi : i < K), ok (mirrors.get ⟨i, Nat.lt_trans hi hK⟩ ++ primary) = false) →
      ok (mirrors.get ⟨K, hK⟩ ++ primary) = true →
      ShellInstall.try_mirrors ok primary mirrors
        = ((mirrors.take (K + 1)).map (fun m => m ++ primary),
           some (mirrors.get ⟨K, hK⟩ ++ primary)) := by
  intro mirrors
  induction mirrors with
  | nil => intro K hK hfail hsucc; exact absurd hK (Nat.not_lt_zero K)
  | cons m ms ih =>
    intro K hK hfail hsucc
    cases K with
    | zero =>
      have h : ok (m ++ primary) = true := hsucc
      simp [ShellInstall.try_mirrors, h]
    | succ K =>
      have h0 : ok (m ++ primary) = false := hfail 0 (Nat.succ_pos K)
      have hK2 : K < ms.length := Nat.lt_of_succ_lt_succ hK
      have hfail2 : ∀ i (hi : i < K), ok (ms.get ⟨i, Nat.lt_trans hi hK2⟩ ++ primary) = false :=
        fun i hi => hfail (i + 1) (Nat.succ_lt_succ hi)
      have hsucc2 : ok (ms.get ⟨K, hK2⟩ ++ primary) = true := hsucc
      simp [ShellInstall.try_mirrors, h0, ih K hK2 hfail2 hsucc2]

/-- Claim C2: given a primary URL and the ordered mirror list, if the
primary and the first K mirrors fail while mirror K+1 (index K) succeeds,
the fetcher performs exactly K+2 attempts — the primary first, then the
mirrors in listed order — and reports success with mirror K+1's URL
(the proxy prefix applied to the primary URL); no later mirror is tried. -/
theorem c2_mirror_failover (ok : String → Bool) (primary : String) (mirrors : List String)
    (K : Nat) (hK : K < mirrors.length)
    (hp : ok primary = false)
    (hfail : ∀ i (hi : i < K), ok (mirrors.get ⟨i, Nat.lt_trans hi hK⟩ ++ primary) = false)
    (hsucc : ok (mirrors.get ⟨K, hK⟩ ++ primary) = true) :
    (ShellInstall.fetch_with_mirrors ok primary mirrors).1
        = primary :: (mirrors.take (K + 1)).map (fun m => m ++ primary) ∧
    (ShellInstall.fetch_with_mirrors ok primary mirrors).1.length = K + 2 ∧
    (ShellInstall.fetch_with_mirrors ok primary mirrors).2
        = some (mirrors.get ⟨K, hK⟩ ++ primary) := by
  have h := try_mirrors_first_success ok primary mirrors K hK hfail hsucc
  refine ⟨?_, ?_, ?_⟩
  · simp [ShellInstall.fetch_with_mirrors, hp, h]
  · simp [ShellInstall.fetch_with_mirrors, hp, h, List.length_map, List.length_take]
    omega
  · simp [ShellInstall.fetch_with_mirrors, hp, h]

/-- Witness for C2 with primary URL u, mirrors m1 m2 m3 and K = 1: the
attempts are u, m1u, m2u (three attempts, listed order) and the reported
success URL is m2 ++ u. -/
theorem c2_mirror_failover_witness :
    (ShellInstall.fetch_with_mirrors (fun s => s == "m2u") "u" ["m1", "m2", "m3"]).1
        = "u" :: (["m1", "m2", "m3"].take 2).map (fun m => m ++ "u") ∧
    (ShellInstall.fetch_with_mirrors (fun s => s == "m2u") "u" ["m1", "m2", "m3"]).1.length
        = 1 + 2 ∧
    (ShellInstall.fetch_with_mirrors (fun s => s == "m2u") "u" ["m1", "m2", "m3"]).2
        = some (["m1", "m2", "m3"].get ⟨1, by decide⟩ ++ "u") :=
  c2_mirror_failover (fun s => s == "m2u") "u" ["m1", "m2", "m3"] 1 (by decide)
    (by decide) (by decide) (by decide)

/-- Helper for C3: when every mirror URL fails, try_mirrors attempts all
of them in order and reports no success. -/
theorem try_mirrors_all_fail (ok : String → Bool) (primary : String) :
    ∀ (mirrors : List String), (∀ m ∈ mirrors, ok (m ++ primary) = false) →
      ShellInstall.try_mirrors ok primary mirrors
        = (mirrors.map (fun m => m ++ primary), none) := by
  intro mirrors
  induction mirrors with
  | nil => intro h; rfl
  | cons m ms ih =>
    intro h
    have h0 : ok (m ++ primary) = false := h m (List.mem_cons_self m ms)
    simp [ShellInstall.try_mirrors, h0, ih (fun x hx => h x (List.mem_cons_of_mem m hx))]

/-- Claim C3: when the primary URL and all N mirrors fail, the fetcher
performs exactly N+1 attempts and the run fails (for-else prints the
failure and calls exit(1), modelled as Except.error ()); and at the QQ
download site, which has no mirrors, any non-zero curl exit is likewise
immediately fatal (curl_subprocess with error_exit = True calls exit(1)).
No partial or degraded continuation exists in either case. -/
theorem c3_download_exhaustion (ok : String → Bool) (primary : String) (mirrors : List String)
    (c : Nat)
    (hp : ok primary = false)
    (hfail : ∀ m ∈ mirrors, ok (m ++ primary) = false)
    (hc : c ≠ 0) :
    (ShellInstall.download_run ok primary mirrors).1.length = mirrors.length + 1 ∧
    (ShellInstall.download_run ok primary mirrors).2 = Except.error () ∧
    curl_fatal c = Except.error () := by
  have h := try_mirrors_all_fail ok primary mirrors hfail
  refine ⟨?_, ?_, ?_⟩
  · simp [ShellInstall.download_run, ShellInstall.fetch_with_mirrors, hp, h]
  · simp [ShellInstall.download_run, ShellInstall.fetch_with_mirrors, hp, h]
  · simp [curl_fatal, hc]

/-- Witness for C3: with the script's actual six-element proxy list and a
transfer oracle that always fails, seven attempts are made and the run
ends with the fatal download failure; a QQ download curl exit of 7 is
fatal as well. -/
theorem c3_download_exhaustion_witness :
    (ShellInstall.download_run (fun _ => false) "u" ShellInstall.proxy_list).1.length
        = ShellInstall.proxy_list.length + 1 ∧
    (ShellInstall.download_run (fun _ => false) "u" ShellInstall.proxy_list).2
        = Except.error () ∧
    curl_fatal 7 = Except.error () :=
  c3_download_exhaustion (fun _ => false) "u" ShellInstall.proxy_list 7 rfl
    (fun m _ => rfl) (by decide)

/-- Helper: setKey stores the value under the key. -/
theorem getVal_setKey_self {α β : Type} [DecidableEq α] (l : List (α × β)) (k : α) (v : β) :
    getVal (setKey l k v) k = some v := by
  induction l with
  | nil => simp [setKey, getVal]
  | cons e rest ih =>
    obtain ⟨k2, v2⟩ := e
    by_cases h : k2 = k
    · simp [setKey, getVal, h]
    · simp [setKey, getVal, h, ih]

/-- Helper: setKey leaves other keys untouched. -/
theorem getVal_setKey_ne {α β : Type} [DecidableEq α] (l : List (α × β)) (k k2 : α) (v : β)
    (h : k2 ≠ k) :
    getVal (setKey l k v) k2 = getVal l k2 := by
  induction l with
  | nil => simp [setKey, getVal, Ne.symm h]
  | cons e rest ih =>
    obtain ⟨a, b⟩ := e
    by_cases ha : a = k
    · subst ha
      simp [setKey, getVal, Ne.symm h]
    · by_cases ha2 : a = k2
      · simp [setKey, getVal, ha, ha2, h]
      · simp [setKey, getVal, ha, ha2, ih]

/-- Helper: writing back a value a key already holds changes nothing. -/
theorem setKey_getVal_eq {α β : Type} [DecidableEq α] :
    ∀ (l : List (α × β)) (k : α) (v : β), getVal l k = some v → setKey l k v = l := by
  intro l
  induction l with
  | nil => intro k v h; simp [getVal] at h
  | cons e rest ih =>
    intro k v h
    obtain ⟨a, b⟩ := e
    by_cases ha : a = k
    · simp [getVal, ha] at h
      simp [setKey, ha, h]
    · simp [getVal, ha] at h
      simp [setKey, ha, ih k v h]

/-- Helper: a sequence of edits that never touches key k leaves its value
unchanged. -/
theorem getVal_applyEdits_notMem {α β : Type} [DecidableEq α] :
    ∀ (es d : List (α × β)) (k : α), (∀ e ∈ es, e.1 ≠ k) →
      getVal (applyEdits d es) k = getVal d k := by
  intro es
  induction es with
  | nil => intro d k h; rfl
  | cons e es ih =>
    intro d k h
    have hstep : applyEdits d (e :: es) = applyEdits (setKey d e.1 e.2) es := rfl
    rw [hstep, ih (setKey d e.1 e.2) k (fun x hx => h x (List.mem_cons_of_mem e hx)),
      getVal_setKey_ne d e.1 k e.2 (fun hh => h e (List.mem_cons_self e es) hh.symm)]

/-- Helper: with distinct edit keys, the value an edit sequence assigns to
one of its keys is the value recorded in the sequence. -/
theorem getVal_applyEdits_mem {α β : Type} [DecidableEq α] :
    ∀ (es d : List (α × β)) (k : α) (v : β), (es.map Prod.fst).Nodup →
      getVal es k = some v → getVal (applyEdits d es) k = some v := by
  intro es
  induction es with
  | nil => intro d k v _ h; simp [getVal] at h
  | cons e es ih =>
    intro d k v hnd h
    obtain ⟨a, b⟩ := e
    simp only [List.map_cons, List.nodup_cons] at hnd
    obtain ⟨hk, hnd2⟩ := hnd
    have hstep : applyEdits d ((a, b) :: es) = applyEdits (setKey d a b) es := rfl
    rw [hstep]
    by_cases ha : a = k
    · subst ha
      simp [getVal] at h
      have hkey : ∀ e2 ∈ es, e2.1 ≠ a := by
        intro e2 he2 heq
        exact hk (heq ▸ List.mem_map_of_mem Prod.fst he2)
      rw [getVal_applyEdits_notMem es (setKey d a b) a hkey, getVal_setKey_self, h]
    · simp [getVal, ha] at h
      exact ih (setKey d a b) k v hnd2 h

/-- Helper: when a key is absent, no entry of the list carries it. -/
theorem forall_ne_of_getVal_eq_none {α β : Type} [DecidableEq α] :
    ∀ (l : List (α × β)) (k : α), getVal l k = none → ∀ e ∈ l, e.1 ≠ k := by
  intro l
  induction l with
  | nil => intro k _ e he; cases he
  | cons e2 rest ih =>
    intro k h e he
    obtain ⟨a, b⟩ := e2
    by_cases ha : a = k
    · simp [getVal, ha] at h
    · simp [getVal, ha] at h
      cases he with
      | head => exact ha
      | tail _ he2 => exact ih k h e he2

/-- Helper: the removal phase keeps exactly the files under config,
with their contents. -/
theorem getVal_remove_except_config (fs : List (List String × String)) (p : List String) :
    getVal (ShellInstall.remove_except_config fs) p
      = if p.head? = some "config" then getVal fs p else none := by
  induction fs with
  | nil => simp [ShellInstall.remove_except_config, getVal]
  | cons e rest ih =>
    obtain ⟨q, c⟩ := e
    simp only [ShellInstall.remove_except_config] at ih ⊢
    by_cases hq : q.head? = some "config"
    · have hqb : (q.head? == some "config") = true := by simp [hq]
      by_cases hpq : q = p
      · subst hpq
        simp [List.filter_cons, hqb, getVal, hq, ih]
      · simp [List.filter_cons, hqb, getVal, hpq, ih]
    · have hqb : (q.head? == some "config") = false := by simp [hq]
      by_cases hp : p.head? = some "config"
      · have hqp : q ≠ p := fun hh => hq (by rw [hh]; exact hp)
        simp [List.filter_cons, hqb, hp, getVal, hqp, ih]
      · simp [List.filter_cons, hqb, hp, ih]

/-- Claim C4, as stated, is false: extraction runs after the removal phase
and overwrites any path the archive itself provides, including paths under
the preserved config subdirectory.  With an installed tree holding
config/x = old and an archive that contains config/x = new, after the
upgrade config/x holds the archive's content, not the preserved one. -/
theorem c4_counterexample :
    getVal (ShellInstall.install_napcat_upgrade
        [(["config", "x"], "old"), (["napcat.mjs"], "v1")]
        [(["config", "x"], "new")]) ["config", "x"] = some "new" ∧
    ("new" : String) ≠ "old" := by
  refine ⟨rfl, by decide⟩

/-- Claim C4, amended: provided the new archive contains no member under
the config subdirectory (and its member paths are distinct), an upgrade
install preserves every config/x file unchanged, while at every path
outside config the result is exactly the archive's content — every other
pre-existing file is gone. -/
theorem c4_upgrade_preserves_config (fs archive : List (List String × String)) (x c : String)
    (hx : getVal fs ["config", x] = some c)
    (harch : ∀ e ∈ archive, e.1.head? ≠ some "config")
    (hnd : (archive.map Prod.fst).Nodup) :
    getVal (ShellInstall.install_napcat_upgrade fs archive) ["config", x] = some c ∧
    ∀ p : List String, p.head? ≠ some "config" →
      getVal (ShellInstall.install_napcat_upgrade fs archive) p = getVal archive p := by
  constructor
  · have hkey : ∀ e ∈ archive, e.1 ≠ ["config", x] := by
      intro e he heq
      exact harch e he (by rw [heq]; rfl)
    simp only [ShellInstall.install_napcat_upgrade, ShellInstall.extract_all]
    rw [getVal_applyEdits_notMem archive _ _ hkey, getVal_remove_except_config]
    simpa using hx
  · intro p hp
    simp only [ShellInstall.install_napcat_upgrade, ShellInstall.extract_all]
    cases hg : getVal archive p with
    | some v => exact getVal_applyEdits_mem archive _ p v hnd hg
    | none =>
      have hkey : ∀ e ∈ archive, e.1 ≠ p := forall_ne_of_getVal_eq_none archive p hg
      rw [getVal_applyEdits_notMem archive _ _ hkey, getVal_remove_except_config]
      simp [hp]

/-- Witness for the amended C4: the tree holds config/x = keep plus a
stale root file, the archive brings one fresh root file; config/x is
preserved and every non-config path equals the archive content. -/
theorem c4_upgrade_preserves_config_witness :
    getVal (ShellInstall.install_napcat_upgrade
        [(["config", "x"], "keep"), (["old.mjs"], "o")]
        [(["napcat.mjs"], "n")]) ["config", "x"] = some "keep" ∧
    ∀ p : List String, p.head? ≠ some "config" →
      getVal (ShellInstall.install_napcat_upgrade
          [(["config", "x"], "keep"), (["old.mjs"], "o")]
          [(["napcat.mjs"], "n")]) p = getVal [(["napcat.mjs"], "n")] p :=
  c4_upgrade_preserves_config
    [(["config", "x"], "keep"), (["old.mjs"], "o")] [(["napcat.mjs"], "n")]
    "x" "keep" (by decide) (by decide) (by decide)

/-- Claim C5: on a DPKG platform, once the install sequence reaches the
dependency phase, libasound2 is attempted; its failure alone is not fatal
(the run completes when the substitute and the cleanup succeed), and the
alternate libasound2t64 is installed exactly when the libasound2 attempt
exits non-zero. -/
theorem c5_libasound_fallback (code : List String → Nat) (url : String)
    (h0 : code (QQ.curl_qq_deb url) = 0) (h1 : code QQ.apt_install_qq = 0)
    (h2 : code (QQ.apt_cmd "libnss3") = 0) (h3 : code (QQ.apt_cmd "libgbm1") = 0)
    (h4 : code (QQ.apt_cmd "xvfb") = 0) :
    QQ.apt_cmd "libasound2" ∈ (QQ.install_dpkg code url).1 ∧
    (QQ.apt_cmd "libasound2t64" ∈ (QQ.install_dpkg code url).1 ↔
      code (QQ.apt_cmd "libasound2") ≠ 0) ∧
    (code (QQ.apt_cmd "libasound2") ≠ 0 → code (QQ.apt_cmd "libasound2t64") = 0 →
      code QQ.rm_qq_deb = 0 → (QQ.install_dpkg code url).2 = none) ∧
    (code (QQ.apt_cmd "libasound2") = 0 → code QQ.rm_qq_deb = 0 →
      (QQ.install_dpkg code url).2 = none) := by
  by_cases ha : code (QQ.apt_cmd "libasound2") = 0
  · refine ⟨?_, ?_, ?_, ?_⟩
    · simp [QQ.install_dpkg, h0, h1, h2, h3, h4, ha]
    · simp only [QQ.install_dpkg, h0, h1, h2, h3, h4, ha]
      constructor
      · intro hmem
        exfalso
        simp [QQ.apt_cmd, QQ.curl_qq_deb, QQ.apt_install_qq, QQ.rm_qq_deb] at hmem
      · intro hcontra
        exact absurd rfl hcontra
    · intro hcontra
      exact absurd ha hcontra
    · intro _ hrm
      simp [QQ.install_dpkg, h0, h1, h2, h3, h4, ha, hrm]
  · refine ⟨?_, ?_, ?_, ?_⟩
    · by_cases hb : code (QQ.apt_cmd "libasound2t64") = 0
      · simp [QQ.install_dpkg, h0, h1, h2, h3, h4, ha, hb]
      · simp [QQ.install_dpkg, h0, h1, h2, h3, h4, ha, hb]
    · constructor
      · intro _
        exact ha
      · intro _
        by_cases hb : code (QQ.apt_cmd "libasound2t64") = 0
        · simp [QQ.install_dpkg, h0, h1, h2, h3, h4, ha, hb]
        · simp [QQ.install_dpkg, h0, h1, h2, h3, h4, ha, hb]
    · intro _ hb hrm
      simp [QQ.install_dpkg, h0, h1, h2, h3, h4, ha, hb, hrm]
    · intro hcontra
      exact absurd hcontra ha

/-- Witness for C5: with every command succeeding except libasound2
(exit 1), the libasound2 attempt is in the trace, libasound2t64 is
attempted, and the run completes. -/
theorem c5_libasound_fallback_witness :
    QQ.apt_cmd "libasound2"
        ∈ (QQ.install_dpkg (fun cc => if cc = QQ.apt_cmd "libasound2" then 1 else 0) "u").1 ∧
    (QQ.apt_cmd "libasound2t64"
        ∈ (QQ.install_dpkg (fun cc => if cc = QQ.apt_cmd "libasound2" then 1 else 0) "u").1 ↔
      (1 : Nat) ≠ 0) ∧
    ((1 : Nat) ≠ 0 → (0 : Nat) = 0 → (0 : Nat) = 0 →
      (QQ.install_dpkg (fun cc => if cc = QQ.apt_cmd "libasound2" then 1 else 0) "u").2
        = none) ∧
    ((1 : Nat) = 0 → (0 : Nat) = 0 →
      (QQ.install_dpkg (fun cc => if cc = QQ.apt_cmd "libasound2" then 1 else 0) "u").2
        = none) :=
  c5_libasound_fallback (fun cc => if cc = QQ.apt_cmd "libasound2" then 1 else 0) "u"
    (by decide) (by decide) (by decide) (by decide) (by decide)

/-- Claim C6 is false on the code, which contradicts its own dead
fallback branches: detect_package_manager probes apt-get through
call_subprocess, which on a non-zero `which` exit terminates the whole
run with that exit code, so with apt-get absent (which exits 1) and yum
present (which exits 0) the run ends with exit code 1 instead of
reporting YUM; detect_package_installer behaves the same for dpkg/rpm.
The elif branches and the UnsupportedPlatform-style else branches
(lines 678-682 and 692-696) are unreachable. -/
theorem c6_detection_exits_before_fallback :
    ShellInstall.detect_package_manager (fun s => if s = "yum" then 0 else 1)
        = Except.error 1 ∧
    ShellInstall.detect_package_manager (fun s => if s = "yum" then 0 else 1)
        ≠ Except.ok PackManager.YUM ∧
    ShellInstall.detect_package_installer (fun s => if s = "rpm" then 0 else 1)
        = Except.error 1 ∧
    ShellInstall.detect_package_installer (fun s => if s = "rpm" then 0 else 1)
        ≠ Except.ok PackInstaller.RPM :=
  ⟨rfl, fun h => Except.noConfusion h, rfl, fun h => Except.noConfusion h⟩

/-- Claim C7 is false on the code, which contradicts its own dead warning
branches (lines 350-351 and 371-372): the rm of the downloaded package
runs through call_subprocess, which on a non-zero exit sys.exits with
rm's exit code, so a deletion failure terminates the run with that code
and the downgrade-to-warning branch can never run; only when rm exits 0
does the run complete. -/
theorem c7_rm_failure_fatal :
    (QQ.install_dpkg (fun cc => if cc = QQ.rm_qq_deb then 2 else 0) "u").2 = some 2 ∧
    (QQ.install_rpm (fun cc => if cc = QQ.rm_qq_rpm then 2 else 0) "u").2 = some 2 ∧
    (QQ.install_dpkg (fun _ => 0) "u").2 = none ∧
    (QQ.install_rpm (fun _ => 0) "u").2 = none :=
  ⟨rfl, rfl, rfl, rfl⟩

/-- Helper for C8: applying an edit sequence with distinct keys a second
time reproduces the very same list, structurally. -/
theorem applyEdits_twice {α β : Type} [DecidableEq α] :
    ∀ (es d : List (α × β)), (es.map Prod.fst).Nodup →
      applyEdits (applyEdits d es) es = applyEdits d es := by
  intro es
  induction es with
  | nil => intro d _; rfl
  | cons e es ih =>
    intro d hnd
    obtain ⟨k, v⟩ := e
    simp only [List.map_cons, List.nodup_cons] at hnd
    obtain ⟨hk, hnd2⟩ := hnd
    have hstep : ∀ d2 : List (α × β),
        applyEdits d2 ((k, v) :: es) = applyEdits (setKey d2 k v) es := fun _ => rfl
    rw [hstep, hstep]
    have hkey : ∀ e2 ∈ es, e2.1 ≠ k := by
      intro e2 he2 heq
      exact hk (heq ▸ List.mem_map_of_mem Prod.fst he2)
    have hv : getVal (applyEdits (setKey d k v) es) k = some v := by
      rw [getVal_applyEdits_notMem es (setKey d k v) k hkey, getVal_setKey_self]
    rw [setKey_getVal_eq _ _ _ hv]
    exact ih (setKey d k v) hnd2

/-- Claim C8: applying an edit set (distinct keys, as every call site has)
twice yields the same file content as applying it once, and every key
outside the edit set keeps its original value; in particular the three
concrete patches of the script — the per-user config update, the
packetServer patch, and the package.json main patch — are idempotent. -/
theorem c8_config_patch_idempotent {β : Type} (d es : List (String × β))
    (ver hsh : String) (d2 : List (String × String))
    (hnd : (es.map Prod.fst).Nodup) :
    applyEdits (applyEdits d es) es = applyEdits d es ∧
    (∀ k : String, (∀ e ∈ es, e.1 ≠ k) → getVal (applyEdits d es) k = getVal d k) ∧
    applyEdits (applyEdits d2 (QQ.config_edits ver hsh)) (QQ.config_edits ver hsh)
        = applyEdits d2 (QQ.config_edits ver hsh) ∧
    ShellInstall.install_packet_patch (ShellInstall.install_packet_patch d2)
        = ShellInstall.install_packet_patch d2 ∧
    ShellInstall.package_json_patch (ShellInstall.package_json_patch d2)
        = ShellInstall.package_json_patch d2 := by
  refine ⟨applyEdits_twice es d hnd, fun k hk => getVal_applyEdits_notMem es d k hk, ?_, ?_, ?_⟩
  · refine applyEdits_twice (QQ.config_edits ver hsh) d2 ?_
    show (["baseVersion", "curVersion", "buildId"] : List String).Nodup
    decide
  · exact applyEdits_twice [("packetServer", "127.0.0.1:8086")] d2 (by decide)
  · exact applyEdits_twice [("main", "./loadNapCat.js")] d2 (by decide)

/-- Witness for C8 at a concrete config and edit set. -/
theorem c8_config_patch_idempotent_witness :
    (([("a", "1"), ("b", "2")] : List (String × String)).map Prod.fst).Nodup ∧
    (applyEdits (applyEdits [("b", "0"), ("z", "9")] [("a", "1"), ("b", "2")])
        [("a", "1"), ("b", "2")]
      = applyEdits [("b", "0"), ("z", "9")] [("a", "1"), ("b", "2")] ∧
    (∀ k : String, (∀ e ∈ ([("a", "1"), ("b", "2")] : List (String × String)), e.1 ≠ k) →
      getVal (applyEdits [("b", "0"), ("z", "9")] [("a", "1"), ("b", "2")]) k
        = getVal [("b", "0"), ("z", "9")] k) ∧
    applyEdits (applyEdits [("packetServer", "old")] (QQ.config_edits "v9" "h9"))
        (QQ.config_edits "v9" "h9")
      = applyEdits [("packetServer", "old")] (QQ.config_edits "v9" "h9") ∧
    ShellInstall.install_packet_patch (ShellInstall.install_packet_patch [("packetServer", "old")])
      = ShellInstall.install_packet_patch [("packetServer", "old")] ∧
    ShellInstall.package_json_patch (ShellInstall.package_json_patch [("packetServer", "old")])
      = ShellInstall.package_json_patch [("packetServer", "old")]) :=
  ⟨by decide,
   c8_config_patch_idempotent [("b", "0"), ("z", "9")] [("a", "1"), ("b", "2")]
     "v9" "h9" [("packetServer", "old")] (by decide)⟩

/-- Claim C9, as stated, is false: when the install directory exists but
the version manifest file is absent, get_local_version does not return
None — the unguarded open of package.json raises, which ends the run with
an error instead of a normal result. -/
theorem c9_counterexample :
    (ShellInstall.get_local_version ⟨true, none⟩).1 = Except.error () ∧
    (ShellInstall.get_local_version ⟨true, none⟩).1 ≠ Except.ok none :=
  ⟨rfl, fun h => Except.noConfusion h⟩

/-- Claim C9, amended: payload version detection returns None (a normal
result) whenever the install directory is absent; when the directory is
present and the manifest carries a version it returns "v" prepended to
that version; a present directory without a readable manifest version
raises instead of returning None.  In every case the filesystem state is
returned unchanged: the method performs no mutation. -/
theorem c9_local_version_detection (st : NapCatTree) :
    (st.dirExists = false → ShellInstall.get_local_version st = (Except.ok none, st)) ∧
    (∀ ver, st.dirExists = true → st.manifestVersion = some ver →
      ShellInstall.get_local_version st = (Except.ok (some ("v" ++ ver)), st)) ∧
    (st.dirExists = true → st.manifestVersion = none →
      ShellInstall.get_local_version st = (Except.error (), st)) ∧
    (ShellInstall.get_local_version st).2 = st := by
  refine ⟨?_, ?_, ?_, ?_⟩
  · intro h
    simp [ShellInstall.get_local_version, h]
  · intro ver h hm
    simp [ShellInstall.get_local_version, h, hm]
  · intro h hm
    simp [ShellInstall.get_local_version, h, hm]
  · by_cases h : st.dirExists = false
    · simp [ShellInstall.get_local_version, h]
    · cases hm : st.manifestVersion with
      | some ver => simp [ShellInstall.get_local_version, h, hm]
      | none => simp [ShellInstall.get_local_version, h, hm]

/-- Witness for the amended C9: absent directory gives None; a directory
with manifest version 1.2.3 gives v1.2.3; the state is unchanged. -/
theorem c9_local_version_detection_witness :
    ShellInstall.get_local_version ⟨false, none⟩ = (Except.ok none, ⟨false, none⟩) ∧
    ShellInstall.get_local_version ⟨true, some "1.2.3"⟩
      = (Except.ok (some "v1.2.3"), ⟨true, some "1.2.3"⟩) :=
  ⟨(c9_local_version_detection ⟨false, none⟩).1 rfl,
   (c9_local_version_detection ⟨true, some "1.2.3"⟩).2.1 "1.2.3" rfl rfl⟩

/-- Claim C10: QQ.check_installed runs update_linuxqq_config on every
invocation, after the decision and independently of it — also when the
decision is SKIP because local and remote versions match — and every
discovered per-user config gets baseVersion, curVersion and buildId
overwritten with the resolved remote version and hash. -/
theorem c10_config_patch_unconditional (localVer : Option String)
    (remoteVer remoteHash : String) (configs : List (List (String × String))) :
    (QQ.check_installed localVer remoteVer remoteHash configs).2
        = QQ.update_linuxqq_config remoteVer remoteHash configs ∧
    (QQ.check_installed (some remoteVer) remoteVer remoteHash configs).1
        = InstallDecision.SKIP ∧
    ∀ d ∈ configs,
      applyEdits d (QQ.config_edits remoteVer remoteHash)
          ∈ (QQ.check_installed localVer remoteVer remoteHash configs).2 ∧
      getVal (applyEdits d (QQ.config_edits remoteVer remoteHash)) "baseVersion"
          = some remoteVer ∧
      getVal (applyEdits d (QQ.config_edits remoteVer remoteHash)) "curVersion"
          = some remoteVer ∧
      getVal (applyEdits d (QQ.config_edits remoteVer remoteHash)) "buildId"
          = some remoteHash := by
  refine ⟨rfl, by simp [QQ.check_installed, QQ.install_decision], fun d hd => ?_⟩
  have happ : applyEdits d (QQ.config_edits remoteVer remoteHash)
      = setKey (setKey (setKey d "baseVersion" remoteVer) "curVersion" remoteVer)
          "buildId" remoteHash := rfl
  refine ⟨?_, ?_, ?_, ?_⟩
  · exact List.mem_map_of_mem _ hd
  · rw [happ, getVal_setKey_ne _ _ _ _ (by decide), getVal_setKey_ne _ _ _ _ (by decide),
      getVal_setKey_self]
  · rw [happ, getVal_setKey_ne _ _ _ _ (by decide), getVal_setKey_self]
  · rw [happ, getVal_setKey_self]

/-- Witness for C10: a config whose stale baseVersion and extra key are
patched to the resolved values even though the decision is SKIP. -/
theorem c10_config_patch_unconditional_witness :
    getVal (applyEdits [("baseVersion", "old"), ("foo", "f")] (QQ.config_edits "v9" "h9"))
        "baseVersion" = some "v9" ∧
    getVal (applyEdits [("baseVersion", "old"), ("foo", "f")] (QQ.config_edits "v9" "h9"))
        "curVersion" = some "v9" ∧
    getVal (applyEdits [("baseVersion", "old"), ("foo", "f")] (QQ.config_edits "v9" "h9"))
        "buildId" = some "h9" :=
  ((c10_config_patch_unconditional (some "v9") "v9" "h9"
      [[("baseVersion", "old"), ("foo", "f")]]).2.2
    [("baseVersion", "old"), ("foo", "f")] (by decide)).2
